import Mathlib

/-! Verification development for the InvestmentWeeklyReport ingestion scripts.

The definitions below are a shallow embedding of the Python sources:
  toolbox/market/update.py        (grouped stock ingestion, interest-ticker
                                   backfill, index ingestion)
  toolbox/sp/alphaventage.py      (AlphaVantage weekly fetcher and Mongo saver)
  toolbox/sp/weekly_sp_analyse.py (weekly sector analyser)

Dates are modelled as integers counting days since 1970-01-01 (the grain the
code persists: a calendar day, time-of-day discarded).  Prices are rationals.
A Python value that may be absent is an Option.  Mongo collections are lists
of documents; update_one with upsert – the only write the ingestion performs –
is modelled as replace-first-match-or-append.
-/

/-- Python or-style truthiness fallback on optional rationals.  Embeds the
pattern at update.py lines 228-235 and 373-377:
getattr(agg, full, None) or getattr(agg, abbr, None).
A present value of 0 is falsy in Python, so the expression falls through to
the second operand in that case. -/
def pyOrQ : Option ℚ → Option ℚ → Option ℚ
  | some v, b => if v = 0 then b else some v
  | none, b => b

/-- Python truthiness fallback on optional integers (update.py lines 221, 233);
0 is falsy. -/
def pyOrInt : Option Int → Option Int → Option Int
  | some v, b => if v = 0 then b else some v
  | none, b => b

/-- Python truthiness fallback on optional strings (update.py line 216);
the empty string is falsy. -/
def pyOrStr : Option String → Option String → Option String
  | some s, b => if s = "" then b else some s
  | none, b => b

/-- One grouped-daily aggregate as returned by the provider, carrying both the
modern attribute names and the legacy single-letter names (update.py lines
5-14 and 216-235).  An absent attribute is none (getattr default). -/
structure Agg where
  ticker : Option String
  T : Option String
  timestamp : Option Int
  t : Option Int
  «open» : Option ℚ
  o : Option ℚ
  high : Option ℚ
  h : Option ℚ
  low : Option ℚ
  l : Option ℚ
  close : Option ℚ
  c : Option ℚ
  volume : Option ℚ
  v : Option ℚ
  transactions : Option Int
  n : Option Int
  otc : Option Bool
  weighted_average_price : Option ℚ
  vw : Option ℚ
deriving DecidableEq

/-- The canonical persisted stock document built at update.py lines 225-238
(and 381-395 for the backfill variant). -/
structure StockDoc where
  ticker : String
  date : Int
  «open» : Option ℚ
  high : Option ℚ
  low : Option ℚ
  close : Option ℚ
  volume : Option ℚ
  transactions : Option Int
  otc : Option Bool
  weighted_average_price : Option ℚ
  source : String
  ingested_at : Int
deriving DecidableEq

/-- update.py line 76-78: millisecond epoch timestamp to a calendar day
(floor division, matching datetime.fromtimestamp on UTC). -/
def asDate (tsMs : Int) : Int :=
  (tsMs.fdiv 1000).fdiv 86400

/-- The per-aggregate normalisation of update.py lines 213-238: resolve the
ticker (full name falling back to the legacy name, reject falsy), resolve the
timestamp likewise, then build the document with each price field resolved by
the same Python-or fallback.  The returned none corresponds to the continue
statements at lines 218 and 223. -/
def normalizeStockAgg (agg : Agg) (now : Int) : Option StockDoc :=
  match pyOrStr agg.ticker agg.T with
  | none => none
  | some tk =>
    if tk = "" then none
    else
      match pyOrInt agg.timestamp agg.t with
      | none => none
      | some ts =>
        if ts = 0 then none
        else some {
          ticker := tk
          date := asDate ts
          «open» := pyOrQ agg.«open» agg.o
          high := pyOrQ agg.high agg.h
          low := pyOrQ agg.low agg.l
          close := pyOrQ agg.close agg.c
          volume := pyOrQ agg.volume agg.v
          transactions := pyOrInt agg.transactions agg.n
          otc := agg.otc
          weighted_average_price := pyOrQ agg.weighted_average_price agg.vw
          source := "polygon"
          ingested_at := now }

/-- Mongo update_one({ticker, date}, {set: doc}, upsert=True) on a collection
(update.py lines 239 and 396): replace the first document carrying the same
(ticker, date) key wholesale, or append when no document matches. -/
def upsertStock : List StockDoc → StockDoc → List StockDoc
  | [], r => [r]
  | x :: xs, r =>
    if x.ticker = r.ticker ∧ x.date = r.date then r :: xs
    else x :: upsertStock xs r

/-- Number of documents in the collection carrying the given (ticker, date)
key: the logical-record count for that key. -/
def countKey (s : List StockDoc) (tk : String) (d : Int) : Nat :=
  (s.filter (fun x => decide (x.ticker = tk ∧ x.date = d))).length

/-- The first document carrying the given (ticker, date) key, i.e. what a
keyed Mongo read returns. -/
def findKey (s : List StockDoc) (tk : String) (d : Int) : Option StockDoc :=
  s.find? (fun x => decide (x.ticker = tk ∧ x.date = d))

/-- The computed window start before the short-circuit test, for either
pipeline (update.py lines 107-114 and 433-438). -/
def gapStartOf (lastDate : Option Int) (defaultStart : Int) : Int :=
  match lastDate with
  | none => defaultStart
  | some l => l + 1

/-- The gap calculation of fetch_and_upsert_stocks (update.py lines 105-130):
start one day after the last stored date, or at the default start when the
store is empty; nothing to do when the start passes today; on a first run with
a positive initial-span limit, trim the start to today minus that many days.
Returns the inclusive fetch window. -/
def computeGapStocks (lastDate : Option Int) (today defaultStart maxInitialDays : Int) :
    Option (Int × Int) :=
  let start := gapStartOf lastDate defaultStart
  if start > today then none
  else
    let start :=
      if lastDate = none ∧ 0 < maxInitialDays then
        let maxStart := today - maxInitialDays
        if start < maxStart then maxStart else start
      else start
    some (start, today)

/-- The per-index gap calculation of fetch_and_upsert_indices (update.py lines
432-442): start one day after the last stored date, or at the default start;
skip the ticker when the start passes today.  The second component is the
exclusive end passed to the provider, today + 1, so the last requested day is
today itself. -/
def computeGapIndices (lastDate : Option Int) (today defaultStart : Int) :
    Option (Int × Int) :=
  let start := gapStartOf lastDate defaultStart
  if start > today then none
  else some (start, today + 1)

/-- Inclusive range of day numbers, the list built by _daterange (update.py
lines 81-85) at line 130. -/
def intRange (s e : Int) : List Int :=
  (List.range (e + 1 - s).toNat).map (fun i => s + i)

/-- The list of days the stock pipeline will iterate over: empty when the gap
calculation short-circuits, otherwise the inclusive window (update.py lines
116-130).  The provider is only ever called for a day of this list. -/
def stocksDays (lastDate : Option Int) (today defaultStart maxInitialDays : Int) :
    List Int :=
  match computeGapStocks lastDate today defaultStart maxInitialDays with
  | none => []
  | some (s, e) => intRange s e

/-- update.py lines 300-302 and 188: Monday to Friday only.  Day 0 is
1970-01-01, a Thursday, whose Python weekday() is 3. -/
def isTradingDay (d : Int) : Bool :=
  (d + 3).emod 7 < 5

/-- Characters compared by code point, as Python string comparison does. -/
def ltChars : List Char → List Char → Bool
  | [], [] => false
  | [], _ :: _ => true
  | _ :: _, [] => false
  | a :: as, b :: bs => if a < b then true else if b < a then false else ltChars as bs

/-- Python string less-than: lexicographic on code points. -/
def strLtb (a b : String) : Bool :=
  ltChars a.data b.data

/-- Lowercasing of a character list, embedding str.lower for the ASCII keys
the payloads use. -/
def lowerChars (l : List Char) : List Char :=
  l.map Char.toLower

/-- Python str.lower on the ASCII strings appearing in these payloads. -/
def lowerStr (s : String) : String :=
  String.mk (lowerChars s.data)

/-- Whether the first list begins with the second, embedding str.startswith. -/
def startsWithChars : List Char → List Char → Bool
  | _, [] => true
  | [], _ :: _ => false
  | a :: as, b :: bs => a == b && startsWithChars as bs

/-- Substring membership on character lists, embedding the Python in operator
on strings. -/
def containsSub : List Char → List Char → Bool
  | [], pat => pat.isEmpty
  | a :: t, pat => startsWithChars (a :: t) pat || containsSub t pat

/-- Python pat in s on strings. -/
def pyIn (pat s : String) : Bool :=
  containsSub s.data pat.data

/-- The rate-limit classifier of update.py line 170: the message contains 429,
or its lowercase form contains the phrase too many 429, or it contains both
rate and limit in lowercase. -/
def is_rate_limited (msg : String) : Bool :=
  pyIn "429" msg || pyIn "too many 429" (lowerStr msg) ||
    (pyIn "rate" (lowerStr msg) && pyIn "limit" (lowerStr msg))

/-- Outcome of one invocation of the grouped-daily provider call: a normalised
result list, or an exception carrying its message (update.py lines 144-168). -/
inductive FetchOutcome where
  | ok (results : List Agg)
  | err (msg : String)

/-- The retry loop of request_with_retry (update.py lines 143-185), with the
operation indexed by invocation number.  Returns the result list together
with the number of invocations performed.  A success returns immediately; a
non-rate-limited error returns the empty list; a rate-limited error bumps the
attempt counter, gives up with the empty list once the counter passes
maxRetries, and otherwise retries after the backoff sleep. -/
def retryAux (op : Nat → FetchOutcome) (maxRetries : Nat) (attempt : Nat) :
    List Agg × Nat :=
  match op attempt with
  | .ok rs => (rs, 1)
  | .err msg =>
    if is_rate_limited msg then
      if h : attempt + 1 > maxRetries then ([], 1)
      else
        let r := retryAux op maxRetries (attempt + 1)
        (r.1, r.2 + 1)
    else ([], 1)
termination_by maxRetries + 1 - attempt
decreasing_by omega

/-- request_with_retry (update.py lines 132-185): run the retry loop starting
from attempt 0, reporting the result list and the number of provider
invocations. -/
def request_with_retry (op : Nat → FetchOutcome) (maxRetries : Nat) :
    List Agg × Nat :=
  retryAux op maxRetries 0

/-- The backoff duration picked at update.py lines 176-179 before retry number
attempt (1-based): base raised to the attempt, except that when the result
exceeds 20 seconds it is raised (never lowered) to one second past the next
wall-clock minute boundary.  nowMod60 is the current position inside the
minute, time.time() mod 60. -/
def backoffWait (base : ℚ) (attempt : Nat) (nowMod60 : ℚ) : ℚ :=
  let backoff := base ^ attempt
  if backoff > 20 then max backoff (60 - nowMod60 + 1) else backoff

/-- The per-day upsert loop body of update.py lines 211-247: truncate the
aggregate batch when a ticker cap is configured (0 means unlimited), normalise
each aggregate, skip rejects, and upsert the rest keyed by (ticker, date). -/
def processDayAggs (maxTickers : Nat) (results : List Agg) (now : Int)
    (store : List StockDoc) : List StockDoc :=
  let iterable := if maxTickers = 0 then results else results.take maxTickers
  iterable.foldl (fun st agg =>
    match normalizeStockAgg agg now with
    | none => st
    | some doc => upsertStock st doc) store

/-- The day loop of fetch_and_upsert_stocks (update.py lines 186-250):
weekends are skipped, an empty fetch result leaves the store untouched and
moves on to the next day, and any other result is folded into the store. -/
def runStockDays (maxTickers : Nat) (fetch : Int → List Agg) (now : Int) :
    List Int → List StockDoc → List StockDoc
  | [], st => st
  | d :: rest, st =>
    if isTradingDay d then
      runStockDays maxTickers fetch now rest (processDayAggs maxTickers (fetch d) now st)
    else
      runStockDays maxTickers fetch now rest st

/-- The daily open/close response object of the per-ticker backfill endpoint
(update.py lines 305-330 and 371-391), carrying both naming conventions. -/
structure OCAgg where
  «open» : Option ℚ
  o : Option ℚ
  close : Option ℚ
  c : Option ℚ
  high : Option ℚ
  h : Option ℚ
  low : Option ℚ
  l : Option ℚ
  volume : Option ℚ
  v : Option ℚ
  otc : Option Bool
deriving DecidableEq

/-- The per-day document construction of backfill_interest_tickers (update.py
lines 371-395): resolve each field with the Python-or fallback, silently drop
the day when the resolved open and close are both missing, and otherwise build
a partial document whose transactions and weighted average price are always
absent. -/
def backfillDoc (ticker : String) (d now : Int) (oc : OCAgg) : Option StockDoc :=
  let open_p := pyOrQ oc.«open» oc.o
  let close_p := pyOrQ oc.close oc.c
  let high_p := pyOrQ oc.high oc.h
  let low_p := pyOrQ oc.low oc.l
  let volume_v := pyOrQ oc.volume oc.v
  if open_p = none ∧ close_p = none then none
  else some {
    ticker := ticker
    date := d
    «open» := open_p
    high := high_p
    low := low_p
    close := close_p
    volume := volume_v
    transactions := none
    otc := oc.otc
    weighted_average_price := none
    source := "polygon-open-close"
    ingested_at := now }

/-- One missing-day step of the backfill loop (update.py lines 366-397): a
fetch that returned nothing, or a day whose document construction was dropped,
leaves the store untouched; otherwise the document is upserted. -/
def backfillStep (ticker : String) (d now : Int) (oc : Option OCAgg)
    (store : List StockDoc) : List StockDoc :=
  match oc with
  | none => store
  | some r =>
    match backfillDoc ticker d now r with
    | none => store
    | some doc => upsertStock store doc

/-- A leaf value of the AlphaVantage JSON payload, split by whether the Python
float() coercion applied at alphaventage.py lines 121-122 succeeds on it:
num q coerces to the rational q, nonNum raises (a non-numeric string). -/
inductive AVal where
  | num (q : ℚ)
  | nonNum
deriving DecidableEq

/-- One week's bar: field label to value, for example the label 4. close. -/
abbrev WeekBar := List (String × AVal)

/-- A weekly series: date string to bar, insertion-ordered like a dict. -/
abbrev WeeklySeries := List (String × WeekBar)

/-- The top-level weekly payload: series name to series. -/
abbrev WeeklyData := List (String × WeeklySeries)

/-- First-match dictionary lookup. -/
def dictGet {α : Type} (l : List (String × α)) (k : String) : Option α :=
  (l.find? (fun p => p.1 == k)).map Prod.snd

/-- Python float() on the result of a dict .get: raises (hence none) on a
missing key or a non-numeric value (alphaventage.py lines 120-124). -/
def pyFloat : Option AVal → Option ℚ
  | some (.num q) => some q
  | some .nonNum => none
  | none => none

/-- Descending insertion keeping the list sorted by code-point order. -/
def insertDesc (x : String) : List String → List String
  | [] => [x]
  | y :: ys => if strLtb x y then y :: insertDesc x ys else x :: y :: ys

/-- sorted(keys, reverse=True) of alphaventage.py line 115. -/
def sortDesc (l : List String) : List String :=
  l.foldr insertDesc []

/-- The key scan of alphaventage.py line 109: the payload keys whose lowercase
form starts with weekly, in payload order. -/
def weeklyKeyCandidates (wd : WeeklyData) : List String :=
  (wd.map Prod.fst).filter (fun k => startsWithChars (lowerChars k.data) "weekly".data)

/-- weekly_data.get(series_key, dict()) of alphaventage.py line 113. -/
def seriesFor (wd : WeeklyData) (k : String) : WeeklySeries :=
  (dictGet wd k).getD []

/-- The close extraction for one week: look the date up in the series, fetch
the 4. close label and coerce it (alphaventage.py lines 118-122). -/
def closeAt (series : WeeklySeries) (d : String) : Option ℚ :=
  pyFloat (dictGet ((dictGet series d).getD []) "4. close")

/-- The summary computed from the last two weeks of a payload
(alphaventage.py lines 126-131). -/
structure WeekSummary where
  week_end : String
  last_close : ℚ
  prev_close : ℚ
  pct_change : ℚ
deriving DecidableEq

/-- compute_last_week_change (alphaventage.py lines 107-131): pick the first
payload key starting with weekly, sort the series dates descending, require at
least two of them, coerce the two most recent close values, and return the
summary; any failure along the way returns none.  The percentage uses rational
division, total in Lean, where Python would raise on a zero previous close. -/
def compute_last_week_change (wd : WeeklyData) : Option WeekSummary :=
  match weeklyKeyCandidates wd with
  | [] => none
  | series_key :: _ =>
    let series := seriesFor wd series_key
    match sortDesc (series.map Prod.fst) with
    | d0 :: d1 :: _ =>
      match closeAt series d0, closeAt series d1 with
      | some lc, some pc =>
        some { week_end := d0, last_close := lc, prev_close := pc,
               pct_change := (lc - pc) / pc * 100 }
      | _, _ => none
    | _ => none

/-- A document of the alpha_weekly_raw collection (alphaventage.py lines
67-75). -/
structure RawDoc where
  symbol : String
  fetched_at : Nat
  query : List (String × String)
  raw : WeeklyData
deriving DecidableEq

/-- A document of the alpha_weekly_summary collection (alphaventage.py lines
152-160). -/
structure SummaryDoc where
  symbol : String
  week_end : Option String
  last_close : Option ℚ
  prev_close : Option ℚ
  pct_change : Option ℚ
  fetched_at : Nat
  raw_id : Nat
deriving DecidableEq

/-- The two AlphaVantage collections together with the object-id counters the
inserts draw from. -/
structure AlphaStore where
  raw : List RawDoc
  summary : List SummaryDoc
  nextRawId : Nat
  nextSummaryId : Nat
deriving DecidableEq

/-- latest_raw_for_symbol (alphaventage.py lines 81-82): the stored raw
document for the symbol with the greatest fetched_at, earliest-inserted on
ties. -/
def latest_raw_for_symbol (docs : List RawDoc) (symbol : String) : Option RawDoc :=
  (docs.filter (fun d => d.symbol == symbol)).foldl
    (fun acc d =>
      match acc with
      | none => some d
      | some a => if d.fetched_at > a.fetched_at then some d else acc)
    none

/-- weekly_pct_from_raw (weekly_sp_analyse.py lines 108-129): read the latest
raw document for the symbol, pick the weekly series, sort its dates
descending, require enough dates for the requested index, coerce the two close
values, and return the percentage; any failure returns none. -/
def weekly_pct_from_raw (docs : List RawDoc) (symbol : String) (index : Nat) :
    Option ℚ :=
  match latest_raw_for_symbol docs symbol with
  | none => none
  | some doc =>
    match weeklyKeyCandidates doc.raw with
    | [] => none
    | key :: _ =>
      let series := seriesFor doc.raw key
      let dates := sortDesc (series.map Prod.fst)
      if dates.length ≤ index + 1 then none
      else
        match dates.get? index, dates.get? (index + 1) with
        | some di, some dn =>
          match closeAt series di, closeAt series dn with
          | some ci, some cn => some ((ci - cn) / cn * 100)
          | _, _ => none
        | _, _ => none

/-- The dictionary save_weekly_to_mongo returns, with absent keys as none. -/
structure SaveResult where
  inserted_raw_id : Option Nat
  inserted_summary_id : Option Nat
  existing_week : Option WeekSummary
  summary_doc : Option SummaryDoc
deriving DecidableEq

/-- save_weekly_to_mongo (alphaventage.py lines 134-162): with duplicate
avoidance on, when the latest stored raw document for the symbol has a
non-empty payload whose summary carries the same week_end as the summary of
the newly fetched payload, return without touching either collection;
otherwise insert the raw document and a summary document built from the new
summary, empty-dict defaulting giving all-none summary fields when the new
payload had no summary. -/
def save_weekly_to_mongo (symbol : String) (params : List (String × String))
    (raw : WeeklyData) (now : Nat) (st : AlphaStore) (avoid_duplicates : Bool) :
    AlphaStore × SaveResult :=
  let last_summary := compute_last_week_change raw
  let dup : Bool :=
    avoid_duplicates &&
      match latest_raw_for_symbol st.raw symbol with
      | none => false
      | some latest =>
        match (if latest.raw = [] then none else compute_last_week_change latest.raw),
            last_summary with
        | some ls, some cs => ls.week_end == cs.week_end
        | _, _ => false
  if dup then
    (st, { inserted_raw_id := none, inserted_summary_id := none,
           existing_week := last_summary, summary_doc := none })
  else
    let raw_id := st.nextRawId
    let st1 : AlphaStore :=
      { st with
        raw := st.raw ++ [{ symbol := symbol, fetched_at := now,
                            query := params, raw := raw }]
        nextRawId := raw_id + 1 }
    let sdoc : SummaryDoc :=
      { symbol := symbol
        week_end := last_summary.map (fun s => s.week_end)
        last_close := last_summary.map (fun s => s.last_close)
        prev_close := last_summary.map (fun s => s.prev_close)
        pct_change := last_summary.map (fun s => s.pct_change)
        fetched_at := now
        raw_id := raw_id }
    let sid := st1.nextSummaryId
    let st2 : AlphaStore :=
      { st1 with summary := st1.summary ++ [sdoc], nextSummaryId := sid + 1 }
    (st2, { inserted_raw_id := some raw_id, inserted_summary_id := some sid,
            existing_week := none, summary_doc := some sdoc })

/-! Concrete instances used by the witnesses and counterexamples below.
Day numbers count days since 1970-01-01: 20089 is 2025-01-01, 20150 is
2025-03-03, 20240 is 2025-06-01.  The millisecond timestamp 86400000 is
1970-01-02. -/

/-- An AAPL record for 2025-03-03 with close 150, as in the spec's idempotence
example. -/
def docA : StockDoc :=
  { ticker := "AAPL", date := 20150, «open» := none, high := none, low := none,
    close := some 150, volume := none, transactions := none, otc := none,
    weighted_average_price := none, source := "polygon", ingested_at := 0 }

/-- A later ingestion of the same (AAPL, 2025-03-03) key with a different
close and a refreshed ingestion time. -/
def docA2 : StockDoc :=
  { docA with close := some 151, ingested_at := 1 }

/-- A provider aggregate with every attribute absent. -/
def aggNone : Agg :=
  { ticker := none, T := none, timestamp := none, t := none, «open» := none,
    o := none, high := none, h := none, low := none, l := none, close := none,
    c := none, volume := none, v := none, transactions := none, n := none,
    otc := none, weighted_average_price := none, vw := none }

/-- An aggregate whose full-name open attribute is present with value 0 while
the abbreviated attribute carries 5. -/
def aggC6 : Agg :=
  { aggNone with
    «open» := some 0
    o := some 5
    close := some 10
    ticker := some "AAPL"
    timestamp := some 86400000 }

/-- An ordinary aggregate with truthy full-name open and transaction count. -/
def aggC6w : Agg :=
  { aggNone with
    «open» := some 3
    o := some 7
    transactions := some 2
    ticker := some "A"
    timestamp := some 86400000 }

/-- The document the normaliser produces from aggC6w. -/
def docC6w : StockDoc :=
  { ticker := "A", date := 1, «open» := some 3, high := none, low := none,
    close := none, volume := none, transactions := some 2, otc := none,
    weighted_average_price := none, source := "polygon", ingested_at := 0 }

/-- An aggregate with a resolvable ticker and timestamp but no close field
under either naming convention. -/
def aggC7 : Agg :=
  { aggNone with
    «open» := some 1
    ticker := some "NOCLOSE"
    timestamp := some 86400000 }

/-- The document the normaliser produces from aggC7: persisted, close none. -/
def docC7 : StockDoc :=
  { ticker := "NOCLOSE", date := 1, «open» := some 1, high := none, low := none,
    close := none, volume := none, transactions := none, otc := none,
    weighted_average_price := none, source := "polygon", ingested_at := 0 }

/-- An open/close response with every attribute absent. -/
def ocNone : OCAgg :=
  { «open» := none, o := none, close := none, c := none, high := none,
    h := none, low := none, l := none, volume := none, v := none, otc := none }

/-- An open/close response whose full-name open attribute is present with
value 0 and everything else absent. -/
def ocC8 : OCAgg :=
  { ocNone with «open» := some 0 }

/-- An open/close response with a truthy open and no close. -/
def ocC8w : OCAgg :=
  { ocNone with «open» := some 2 }

/-- The partial document the backfill builds from ocC8w. -/
def docC8w : StockDoc :=
  { ticker := "AAPL", date := 20150, «open» := some 2, high := none, low := none,
    close := none, volume := none, transactions := none, otc := none,
    weighted_average_price := none, source := "polygon-open-close",
    ingested_at := 0 }

/-- A weekly payload whose most recent close value fails float coercion. -/
def wdC9 : WeeklyData :=
  [("Weekly Time Series",
    [("2025-09-12", [("4. close", AVal.nonNum)]),
     ("2025-09-05", [("4. close", AVal.num 80)])])]

/-- A stored raw document wrapping wdC9. -/
def rawC9 : RawDoc :=
  { symbol := "QQQ", fetched_at := 3, query := [], raw := wdC9 }

/-- A well-formed weekly payload with two weeks of data. -/
def wdSample : WeeklyData :=
  [("Weekly Adjusted Time Series",
    [("2025-09-12", [("4. close", AVal.num 100)]),
     ("2025-09-05", [("4. close", AVal.num 80)])])]

/-- A stored raw document wrapping wdSample. -/
def rawDocC10 : RawDoc :=
  { symbol := "SPY", fetched_at := 5, query := [], raw := wdSample }

/-- A store already holding rawDocC10. -/
def storeC10 : AlphaStore :=
  { raw := [rawDocC10], summary := [], nextRawId := 1, nextSummaryId := 1 }

/-- The summary wdSample yields: the week ending 2025-09-12 rose 25 percent. -/
def wsSample : WeekSummary :=
  { week_end := "2025-09-12", last_close := 100, prev_close := 80,
    pct_change := 25 }

/-! Helper lemmas. -/

theorem pyOrQ_of_ne_zero {v : ℚ} (hv : v ≠ 0) (b : Option ℚ) :
    pyOrQ (some v) b = some v := by
  simp [pyOrQ, hv]

theorem pyOrQ_falsy {a : Option ℚ} (b : Option ℚ) (ha : a = none ∨ a = some 0) :
    pyOrQ a b = b := by
  rcases ha with h | h <;> simp [h, pyOrQ]

theorem pyOrInt_of_ne_zero {v : Int} (hv : v ≠ 0) (b : Option Int) :
    pyOrInt (some v) b = some v := by
  simp [pyOrInt, hv]

theorem pyOrInt_falsy {a : Option Int} (b : Option Int) (ha : a = none ∨ a = some 0) :
    pyOrInt a b = b := by
  rcases ha with h | h <;> simp [h, pyOrInt]

theorem countKey_cons (x : StockDoc) (xs : List StockDoc) (tk : String) (d : Int) :
    countKey (x :: xs) tk d =
      (if x.ticker = tk ∧ x.date = d then 1 else 0) + countKey xs tk d := by
  by_cases h : x.ticker = tk ∧ x.date = d <;>
    simp [countKey, h, List.filter_cons, Nat.add_comm]

theorem countKey_upsert_self (s : List StockDoc) (r : StockDoc)
    (h : countKey s r.ticker r.date ≤ 1) :
    countKey (upsertStock s r) r.ticker r.date = 1 := by
  induction s with
  | nil => simp [upsertStock, countKey]
  | cons x xs ih =>
    rw [countKey_cons] at h
    by_cases hk : x.ticker = r.ticker ∧ x.date = r.date
    · rw [if_pos hk] at h
      have hz : countKey xs r.ticker r.date = 0 := by omega
      simp [upsertStock, hk, countKey_cons, hz]
    · rw [if_neg hk] at h
      simp only [upsertStock, if_neg hk]
      rw [countKey_cons, if_neg hk, ih (by omega)]

theorem findKey_upsert_self (s : List StockDoc) (r : StockDoc) :
    findKey (upsertStock s r) r.ticker r.date = some r := by
  induction s with
  | nil => simp [upsertStock, findKey, List.find?]
  | cons x xs ih =>
    by_cases hk : x.ticker = r.ticker ∧ x.date = r.date
    · simp [upsertStock, hk, findKey, List.find?]
    · simp only [upsertStock, if_neg hk, findKey] at ih ⊢
      rw [List.find?_cons_of_neg _ (by simpa using hk), ih]

/-- C1: the keyed upsert is idempotent: starting from a store holding at most
one logical record for the key, upserting any nonempty sequence of records all
carrying that (ticker, date) key leaves exactly one logical record for it,
whose fields are exactly those of the last write (wholesale, no merge) --
repeated ingestion overwrites rather than appends. -/
theorem upsert_idempotence (s : List StockDoc) (tk : String) (d : Int)
    (recs : List StockDoc) (hne : recs ≠ [])
    (hall : ∀ r ∈ recs, r.ticker = tk ∧ r.date = d)
    (hcount : countKey s tk d ≤ 1) :
    countKey (recs.foldl upsertStock s) tk d = 1 ∧
    findKey (recs.foldl upsertStock s) tk d = recs.getLast? := by
  induction recs generalizing s with
  | nil => exact absurd rfl hne
  | cons r rest ih =>
    obtain ⟨hrt, hrd⟩ := hall r (List.mem_cons_self r rest)
    have hcu : countKey (upsertStock s r) tk d = 1 := by
      rw [← hrt, ← hrd]
      exact countKey_upsert_self s r (by rw [hrt, hrd]; exact hcount)
    cases rest with
    | nil =>
      refine ⟨hcu, ?_⟩
      rw [← hrt, ← hrd]
      exact findKey_upsert_self s r
    | cons r2 rest2 =>
      have h := ih (upsertStock s r) (by simp)
        (fun x hx => hall x (List.mem_cons_of_mem r hx)) (le_of_eq hcu)
      simpa using h

theorem upsert_idempotence_witness :
    countKey (List.foldl upsertStock [] [docA, docA2]) "AAPL" 20150 = 1 ∧
    findKey (List.foldl upsertStock [] [docA, docA2]) "AAPL" 20150 = some docA2 := by
  have h := upsert_idempotence [] "AAPL" 20150 [docA, docA2] (by simp)
    (by decide) (by decide)
  exact ⟨h.1, h.2.trans (by rfl)⟩

/-- C2: with prior data strictly before today, the stock window is exactly
(last + 1) to today inclusive, and the index window is (last + 1) to today
inclusive (exclusive end today + 1); whenever the computed start passes today,
both gap calculations return none, and the stock pipeline's day list is empty,
so no provider call is made. -/
theorem gap_window_correct :
    (∀ last today ds mi : Int, last < today →
        computeGapStocks (some last) today ds mi = some (last + 1, today)) ∧
    (∀ last today ds : Int, last < today →
        computeGapIndices (some last) today ds = some (last + 1, today + 1)) ∧
    (∀ (lastDate : Option Int) (today ds mi : Int),
        gapStartOf lastDate ds > today →
        computeGapStocks lastDate today ds mi = none ∧
        stocksDays lastDate today ds mi = [] ∧
        computeGapIndices lastDate today ds = none) := by
  refine ⟨?_, ?_, ?_⟩
  · intro last today ds mi hlt
    simp only [computeGapStocks, gapStartOf]
    rw [if_neg (by omega)]
    simp
  · intro last today ds hlt
    simp only [computeGapIndices, gapStartOf]
    rw [if_neg (by omega)]
  · intro lastDate today ds mi hgt
    have hs : computeGapStocks lastDate today ds mi = none := by
      simp only [computeGapStocks]
      rw [if_pos hgt]
    refine ⟨hs, ?_, ?_⟩
    · unfold stocksDays
      rw [hs]
    · simp only [computeGapIndices]
      rw [if_pos hgt]

theorem gap_window_correct_witness :
    computeGapStocks (some 20148) 20150 20089 90 = some (20148 + 1, 20150) ∧
    computeGapIndices (some 20148) 20150 20089 = some (20148 + 1, 20150 + 1) ∧
    (computeGapStocks (some 20150) 20150 20089 90 = none ∧
      stocksDays (some 20150) 20150 20089 90 = [] ∧
      computeGapIndices (some 20150) 20150 20089 = none) :=
  ⟨gap_window_correct.1 20148 20150 20089 90 (by decide),
   gap_window_correct.2.1 20148 20150 20089 (by decide),
   gap_window_correct.2.2 (some 20150) 20150 20089 90 (by decide)⟩

/-- C3: on a first run (no prior data) whose default start does not pass
today, the window starts at the default start, except that when the span from
the default start to today exceeds a positive max-initial-days the start is
clamped to today minus that many days; in particular with default start
2025-01-01 (day 20089), today 2025-06-01 (day 20240) and limit 90 the start is
today minus 90 days (2025-03-03, day 20150), not the default start. -/
theorem first_run_clamping :
    (∀ today ds mi : Int, ds ≤ today → 0 < mi →
        (mi < today - ds → computeGapStocks none today ds mi = some (today - mi, today)) ∧
        (today - ds ≤ mi → computeGapStocks none today ds mi = some (ds, today))) ∧
    (computeGapStocks none 20240 20089 90 = some (20150, 20240) ∧
      (20150 : Int) = 20240 - 90 ∧ (20150 : Int) ≠ 20089) := by
  constructor
  · intro today ds mi hle hmi
    constructor
    · intro hspan
      simp only [computeGapStocks, gapStartOf]
      rw [if_neg (by omega),
        if_pos (show True ∧ 0 < mi from ⟨trivial, hmi⟩), if_pos (by omega)]
    · intro hspan
      simp only [computeGapStocks, gapStartOf]
      rw [if_neg (by omega),
        if_pos (show True ∧ 0 < mi from ⟨trivial, hmi⟩), if_neg (by omega)]
  · exact ⟨by decide, by decide, by decide⟩

theorem first_run_clamping_witness :
    computeGapStocks none 20240 20089 90 = some (20240 - 90, 20240) ∧
    computeGapStocks none 20240 20200 90 = some (20200, 20240) :=
  ⟨(first_run_clamping.1 20240 20089 90 (by decide) (by decide)).1 (by decide),
   (first_run_clamping.1 20240 20200 90 (by decide) (by decide)).2 (by decide)⟩

theorem retryAux_all_limited (op : Nat → FetchOutcome)
    (hop : ∀ k, ∃ msg, op k = .err msg ∧ is_rate_limited msg = true) (N : Nat) :
    ∀ (f a : Nat), N - a = f → a ≤ N → retryAux op N a = ([], N + 1 - a) := by
  intro f
  induction f with
  | zero =>
    intro a hf ha
    obtain ⟨msg, hmsg, hrl⟩ := hop a
    unfold retryAux
    rw [hmsg]
    simp only [hrl, if_true]
    rw [dif_pos (by omega)]
    congr 1
    omega
  | succ f ih =>
    intro a hf ha
    obtain ⟨msg, hmsg, hrl⟩ := hop a
    unfold retryAux
    rw [hmsg]
    simp only [hrl, if_true]
    rw [dif_neg (by omega)]
    rw [ih (a + 1) (by omega) (by omega)]
    simp only []
    congr 1
    omega

/-- C4: an operation that raises a rate-limit-classified error on every
invocation is invoked exactly maxRetries + 1 times (the initial attempt plus
maxRetries retries) and the helper then returns the empty result list; and the
day loop treats an empty fetch result as skip-and-continue: the store is
untouched for that day and processing proceeds with the remaining days. -/
theorem retry_exhaustion_skip :
    (∀ (op : Nat → FetchOutcome) (N : Nat),
        (∀ k, ∃ msg, op k = .err msg ∧ is_rate_limited msg = true) →
        request_with_retry op N = ([], N + 1)) ∧
    (∀ (mt : Nat) (fetch : Int → List Agg) (now d : Int) (rest : List Int)
        (st : List StockDoc), fetch d = [] →
        runStockDays mt fetch now (d :: rest) st = runStockDays mt fetch now rest st) := by
  constructor
  · intro op N hop
    unfold request_with_retry
    rw [retryAux_all_limited op hop N N 0 (by omega) (by omega)]
    norm_num
  · intro mt fetch now d rest st hf
    have hempty : processDayAggs mt (fetch d) now st = st := by
      rw [hf]
      unfold processDayAggs
      cases mt <;> simp
    have hstep : runStockDays mt fetch now (d :: rest) st =
        if isTradingDay d then
          runStockDays mt fetch now rest (processDayAggs mt (fetch d) now st)
        else runStockDays mt fetch now rest st := rfl
    rw [hstep, hempty]
    by_cases ht : isTradingDay d <;> simp [ht]

theorem retry_exhaustion_skip_witness :
    request_with_retry (fun _ => FetchOutcome.err "429 too many requests") 2 = ([], 2 + 1) ∧
    runStockDays 0 (fun _ => []) 0 (20149 :: [20150]) [] =
      runStockDays 0 (fun _ => []) 0 [20150] [] :=
  ⟨retry_exhaustion_skip.1 (fun _ => FetchOutcome.err "429 too many requests") 2
      (fun _ => ⟨"429 too many requests", rfl, by decide⟩),
   retry_exhaustion_skip.2 0 (fun _ => []) 0 20149 [20150] [] rfl⟩

/-- C5 counterexample: with backoff base 2 at retry attempt 5 and the clock at
second 55 of the minute, the exponential backoff is 32 seconds (past the 20
second threshold) while the next minute boundary is 5 seconds away; the claim
says the wait becomes the boundary-aligned 6 seconds, but the code waits the
full 32 seconds. -/
theorem backoff_alignment_counterexample :
    backoffWait 2 5 55 = 32 ∧ (60 : ℚ) - 55 + 1 = 6 ∧ (32 : ℚ) ≠ 6 := by
  refine ⟨?_, by norm_num, by norm_num⟩
  unfold backoffWait
  norm_num

/-- C5 amended: for every retry attempt k (1-based) after a rate-limit error
the wait is backoff base to the k seconds; when that exceeds the 20 second
threshold the wait becomes the maximum of the exponential backoff and one
second past the next wall-clock minute boundary -- it is never shortened below
the exponential backoff, so the wake-up time is aligned to at least one second
past the boundary. -/
theorem backoff_alignment_amended :
    ∀ (base : ℚ) (k : Nat) (m : ℚ), 20 < base ^ k →
      backoffWait base k m = max (base ^ k) (60 - m + 1) ∧
      60 - m + 1 ≤ backoffWait base k m := by
  intro base k m hgt
  unfold backoffWait
  rw [if_pos hgt]
  exact ⟨rfl, le_max_right _ _⟩

theorem backoff_alignment_amended_witness :
    backoffWait 2 5 55 = max (2 ^ 5) (60 - 55 + 1) ∧
    (60 : ℚ) - 55 + 1 ≤ backoffWait 2 5 55 :=
  backoff_alignment_amended 2 5 55 (by norm_num)

theorem normalizeStockAgg_fields (agg : Agg) (now : Int) (doc : StockDoc)
    (h : normalizeStockAgg agg now = some doc) :
    doc.«open» = pyOrQ agg.«open» agg.o ∧ doc.high = pyOrQ agg.high agg.h ∧
    doc.low = pyOrQ agg.low agg.l ∧ doc.close = pyOrQ agg.close agg.c ∧
    doc.volume = pyOrQ agg.volume agg.v ∧
    doc.transactions = pyOrInt agg.transactions agg.n := by
  unfold normalizeStockAgg at h
  split at h
  · exact absurd h (by simp)
  · split at h
    · exact absurd h (by simp)
    · split at h
      · exact absurd h (by simp)
      · split at h
        · exact absurd h (by simp)
        · have := Option.some.inj h
          subst this
          exact ⟨rfl, rfl, rfl, rfl, rfl, rfl⟩

/-- C6 counterexample: an aggregate whose full-name open attribute resolves to
0 while the abbreviated attribute carries 5 is normalised with open 5: the
resolvable full-name value 0 is NOT used in preference to the abbreviated
one, because the code uses Python truthiness, not presence, to choose. -/
theorem field_fallback_counterexample :
    aggC6.«open» = some 0 ∧
    (normalizeStockAgg aggC6 0).map (fun d => d.«open») = some (some 5) ∧
    some (5 : ℚ) ≠ some (0 : ℚ) := by
  refine ⟨rfl, by rfl, by norm_num⟩

/-- C6 amended: for every canonical field (open, high, low, close, volume,
transactions) the normaliser stores the full-name value when it is present
and nonzero; when the full name is absent or resolves to the falsy value 0 it
stores the abbreviated-name value as-is (hence none when both are absent). -/
theorem field_fallback_amended :
    ∀ (agg : Agg) (now : Int) (doc : StockDoc),
      normalizeStockAgg agg now = some doc →
      ((∀ v : ℚ, agg.«open» = some v → v ≠ 0 → doc.«open» = some v) ∧
        ((agg.«open» = none ∨ agg.«open» = some 0) → doc.«open» = agg.o)) ∧
      ((∀ v : ℚ, agg.high = some v → v ≠ 0 → doc.high = some v) ∧
        ((agg.high = none ∨ agg.high = some 0) → doc.high = agg.h)) ∧
      ((∀ v : ℚ, agg.low = some v → v ≠ 0 → doc.low = some v) ∧
        ((agg.low = none ∨ agg.low = some 0) → doc.low = agg.l)) ∧
      ((∀ v : ℚ, agg.close = some v → v ≠ 0 → doc.close = some v) ∧
        ((agg.close = none ∨ agg.close = some 0) → doc.close = agg.c)) ∧
      ((∀ v : ℚ, agg.volume = some v → v ≠ 0 → doc.volume = some v) ∧
        ((agg.volume = none ∨ agg.volume = some 0) → doc.volume = agg.v)) ∧
      ((∀ v : Int, agg.transactions = some v → v ≠ 0 → doc.transactions = some v) ∧
        ((agg.transactions = none ∨ agg.transactions = some 0) →
          doc.transactions = agg.n)) := by
  intro agg now doc h
  obtain ⟨ho, hh, hl, hc, hv, ht⟩ := normalizeStockAgg_fields agg now doc h
  refine ⟨⟨?_, ?_⟩, ⟨?_, ?_⟩, ⟨?_, ?_⟩, ⟨?_, ?_⟩, ⟨?_, ?_⟩, ⟨?_, ?_⟩⟩
  · intro v hveq hvne; rw [ho, hveq, pyOrQ_of_ne_zero hvne]
  · intro hf; rw [ho, pyOrQ_falsy _ hf]
  · intro v hveq hvne; rw [hh, hveq, pyOrQ_of_ne_zero hvne]
  · intro hf; rw [hh, pyOrQ_falsy _ hf]
  · intro v hveq hvne; rw [hl, hveq, pyOrQ_of_ne_zero hvne]
  · intro hf; rw [hl, pyOrQ_falsy _ hf]
  · intro v hveq hvne; rw [hc, hveq, pyOrQ_of_ne_zero hvne]
  · intro hf; rw [hc, pyOrQ_falsy _ hf]
  · intro v hveq hvne; rw [hv, hveq, pyOrQ_of_ne_zero hvne]
  · intro hf; rw [hv, pyOrQ_falsy _ hf]
  · intro v hveq hvne; rw [ht, hveq, pyOrInt_of_ne_zero hvne]
  · intro hf; rw [ht, pyOrInt_falsy _ hf]

theorem field_fallback_amended_witness :
    docC6w.«open» = some 3 ∧ docC6w.transactions = some 2 := by
  have h := field_fallback_amended aggC6w 0 docC6w (by rfl)
  exact ⟨h.1.1 3 rfl (by norm_num), h.2.2.2.2.2.1 2 rfl (by norm_num)⟩

/-- C7 counterexample: an aggregate with a resolvable ticker and timestamp but
with neither the close nor the c attribute resolvable is NOT rejected by the
grouped normaliser: it produces a document with close none, and that document
is persisted by the day loop. -/
theorem close_rejection_counterexample :
    aggC7.close = none ∧ aggC7.c = none ∧
    normalizeStockAgg aggC7 0 = some docC7 ∧
    countKey (processDayAggs 0 [aggC7] 0 []) "NOCLOSE" 1 = 1 := by
  exact ⟨rfl, rfl, by rfl, by rfl⟩

/-- C7 amended: the grouped normaliser rejects a record exactly when its
resolved ticker is missing or empty, or its resolved timestamp is missing or
zero; the close fields play no part in rejection -- a record lacking both
close and c is persisted with close none. -/
theorem close_rejection_amended :
    ∀ (agg : Agg) (now : Int),
      (normalizeStockAgg agg now = none ↔
        pyOrStr agg.ticker agg.T = none ∨ pyOrStr agg.ticker agg.T = some "" ∨
        pyOrInt agg.timestamp agg.t = none ∨ pyOrInt agg.timestamp agg.t = some 0) ∧
      (∀ doc, normalizeStockAgg agg now = some doc →
        doc.close = pyOrQ agg.close agg.c) := by
  intro agg now
  constructor
  · unfold normalizeStockAgg
    split
    · rename_i hpt
      simp [hpt]
    · rename_i tk hpt
      split
      · rename_i he
        subst he
        simp [hpt]
      · rename_i he
        split
        · rename_i hts
          simp [hpt, hts, he]
        · rename_i ts hts
          split
          · rename_i hz
            subst hz
            simp [hpt, hts, he]
          · rename_i hz
            simp [hpt, hts, he, hz]
  · intro doc h
    exact (normalizeStockAgg_fields agg now doc h).2.2.2.1

theorem close_rejection_amended_witness :
    normalizeStockAgg aggC7 0 = some docC7 ∧
    docC7.close = pyOrQ aggC7.close aggC7.c := by
  refine ⟨by rfl, ?_⟩
  exact (close_rejection_amended aggC7 0).2 docC7 (by rfl)

/-- C8 counterexample: an open/close response whose full-name open attribute
is present with the value 0 (a value, so open resolves under the claim's
reading) and whose other attributes are absent is silently dropped by the
backfill -- nothing is persisted -- because Python truthiness treats the 0 as
unresolved. -/
theorem backfill_null_tolerance_counterexample :
    ocC8.«open» = some 0 ∧ backfillDoc "AAPL" 20150 0 ocC8 = none ∧
    backfillStep "AAPL" 20150 0 (some ocC8) [] = [] := by
  exact ⟨rfl, by rfl, by rfl⟩

/-- C8 amended: the backfill drops a day's data exactly when the truthiness
resolutions of open and close are both none (a full-name 0 with an absent
abbreviated attribute counts as unresolved); otherwise a partial document is
persisted carrying the resolved fields, none for the unresolvable ones, and
always-none transactions and weighted average price. -/
theorem backfill_null_tolerance_amended :
    ∀ (tk : String) (d now : Int) (oc : OCAgg),
      (backfillDoc tk d now oc = none ↔
        pyOrQ oc.«open» oc.o = none ∧ pyOrQ oc.close oc.c = none) ∧
      (∀ doc, backfillDoc tk d now oc = some doc →
        doc.«open» = pyOrQ oc.«open» oc.o ∧ doc.close = pyOrQ oc.close oc.c ∧
        doc.high = pyOrQ oc.high oc.h ∧ doc.low = pyOrQ oc.low oc.l ∧
        doc.volume = pyOrQ oc.volume oc.v ∧ doc.transactions = none ∧
        doc.weighted_average_price = none) := by
  intro tk d now oc
  unfold backfillDoc
  by_cases hb : pyOrQ oc.«open» oc.o = none ∧ pyOrQ oc.close oc.c = none
  · rw [if_pos hb]
    exact ⟨by simp [hb], fun doc h => absurd h (by simp)⟩
  · rw [if_neg hb]
    refine ⟨by simp [hb], ?_⟩
    intro doc h
    have := Option.some.inj h
    subst this
    exact ⟨rfl, rfl, rfl, rfl, rfl, rfl, rfl⟩

theorem backfill_null_tolerance_amended_witness :
    (backfillDoc "AAPL" 20150 0 ocC8w = none ↔
      pyOrQ ocC8w.«open» ocC8w.o = none ∧ pyOrQ ocC8w.close ocC8w.c = none) ∧
    docC8w.«open» = some 2 ∧ docC8w.close = none := by
  have h := backfill_null_tolerance_amended "AAPL" 20150 0 ocC8w
  have h2 := h.2 docC8w (by rfl)
  exact ⟨h.1, h2.1.trans (by rfl), h2.2.1.trans (by rfl)⟩

/-- C9: in both weekly-change computations, extraction goes through the known
close label followed by float coercion, and a failed coercion on either of the
two inspected weeks yields none (the record is rejected, never zero-filled). -/
theorem weekly_coercion_rejects :
    (∀ (wd : WeeklyData) (sk : String) (ks : List String) (d0 d1 : String)
        (rest : List String),
        weeklyKeyCandidates wd = sk :: ks →
        sortDesc ((seriesFor wd sk).map Prod.fst) = d0 :: d1 :: rest →
        (closeAt (seriesFor wd sk) d0 = none ∨ closeAt (seriesFor wd sk) d1 = none) →
        compute_last_week_change wd = none) ∧
    (∀ (docs : List RawDoc) (symbol : String) (i : Nat) (L : RawDoc) (sk : String)
        (ks : List String) (di dn : String),
        latest_raw_for_symbol docs symbol = some L →
        weeklyKeyCandidates L.raw = sk :: ks →
        (sortDesc ((seriesFor L.raw sk).map Prod.fst)).get? i = some di →
        (sortDesc ((seriesFor L.raw sk).map Prod.fst)).get? (i + 1) = some dn →
        (closeAt (seriesFor L.raw sk) di = none ∨ closeAt (seriesFor L.raw sk) dn = none) →
        weekly_pct_from_raw docs symbol i = none) := by
  constructor
  · intro wd sk ks d0 d1 rest h1 h2 h3
    unfold compute_last_week_change
    rw [h1]
    simp only [h2]
    rcases h3 with h | h <;> simp [h]
  · intro docs symbol i L sk ks di dn h1 h2 h3 h4 h5
    unfold weekly_pct_from_raw
    rw [h1]
    dsimp only
    rw [h2]
    dsimp only
    have hlen : ¬ ((sortDesc ((seriesFor L.raw sk).map Prod.fst)).length ≤ i + 1) := by
      intro hle
      rw [List.get?_eq_none.mpr hle] at h4
      exact Option.noConfusion h4
    rw [if_neg hlen, h3, h4]
    rcases h5 with h | h <;> simp [h]

theorem weekly_coercion_rejects_witness :
    compute_last_week_change wdC9 = none ∧
    weekly_pct_from_raw [rawC9] "QQQ" 0 = none := by
  constructor
  · exact weekly_coercion_rejects.1 wdC9 "Weekly Time Series" [] "2025-09-12"
      "2025-09-05" [] (by decide) (by decide) (Or.inl (by rfl))
  · exact weekly_coercion_rejects.2 [rawC9] "QQQ" 0 rawC9 "Weekly Time Series" []
      "2025-09-12" "2025-09-05" (by decide) (by decide) (by decide) (by decide)
      (Or.inl (by rfl))

/-- C10: with duplicate avoidance on, when the most recently fetched stored
raw document for the symbol has a non-empty payload whose computed summary
carries the same week_end as the newly fetched payload's summary, the save
inserts nothing -- both collections and the id counters are returned unchanged
-- and reports inserted_raw_id none together with the existing week's
summary. -/
theorem duplicate_week_save_noop :
    ∀ (symbol : String) (params : List (String × String)) (raw : WeeklyData)
      (now : Nat) (st : AlphaStore) (L : RawDoc) (ls cs : WeekSummary),
      latest_raw_for_symbol st.raw symbol = some L →
      L.raw ≠ [] →
      compute_last_week_change L.raw = some ls →
      compute_last_week_change raw = some cs →
      ls.week_end = cs.week_end →
      save_weekly_to_mongo symbol params raw now st true =
        (st, { inserted_raw_id := none, inserted_summary_id := none,
               existing_week := some cs, summary_doc := none }) := by
  intro symbol params raw now st L ls cs h1 h2 h3 h4 h5
  unfold save_weekly_to_mongo
  rw [h4, h1]
  dsimp only
  rw [if_neg h2, h3]
  simp [h5]

theorem duplicate_week_save_noop_witness :
    save_weekly_to_mongo "SPY" [] wdSample 9 storeC10 true =
      (storeC10, { inserted_raw_id := none, inserted_summary_id := none,
                   existing_week := some wsSample, summary_doc := none }) := by
  have harith : ((100 : ℚ) - 80) / 80 * 100 = 25 := by norm_num
  have hc : compute_last_week_change wdSample =
      some { week_end := "2025-09-12", last_close := 100, prev_close := 80,
             pct_change := ((100 : ℚ) - 80) / 80 * 100 } := by rfl
  rw [harith] at hc
  exact duplicate_week_save_noop "SPY" [] wdSample 9 storeC10 rawDocC10 wsSample
    wsSample (by rfl) (by simp [rawDocC10, wdSample]) hc hc rfl
